import Mathlib

/-!
Shallow embedding of the Universe lifecycle and resource-allocation core
of virtuakube (`universe.go`).

Modelling conventions:
* Machine bytes (entries of a `net.IP` slice) are `Nat` values with wrap-around
  made explicit as `% 256`; a `net.IP` value is a `List Nat`.
* The lifetime context is a boolean flag `ctxCancelled` on the `Universe` state.
* Environment interactions (`exec.LookPath`, `ioutil.TempDir`, `exec.Cmd.Start`,
  `os.RemoveAll`) are passed in as explicit parameters carrying their outcomes,
  and the side effects performed by an operation are returned in explicit
  effect records.
* The port-generator goroutine's state is the counter `nextPort`; one accepted
  send of its loop body is `portGenIter`.
-/

namespace Virtuakube

/-- Outcome of `exec.LookPath` for one tool: found on the search path, not
found (`exec.ErrNotFound`), or failed for another reason. -/
inductive LookRes where
  | found
  | notFound
  | otherErr (e : String)
deriving DecidableEq

/-- Error values produced by the core, mirroring the spec's taxonomy:
`missingDeps` is the `MissingDependency` error built by `checkTools`,
`ioErr` stands for filesystem errors, `spawnErr` for a failed switch spawn,
`lookErr` for a non-not-found `LookPath` failure. -/
inductive UErr where
  | missingDeps (names : List String)
  | ioErr (e : String)
  | spawnErr (e : String)
  | lookErr (e : String)
deriving DecidableEq

/-- Rendered message of an error; for `missingDeps` this is the
`fmt.Errorf("required tools missing: %s", strings.Join(missing, ", "))`
of the source. -/
def UErr.message : UErr → String
  | .missingDeps names => "required tools missing: " ++ String.intercalate ", " names
  | .ioErr e => e
  | .spawnErr e => e
  | .lookErr e => e

/-- var universeTools of the source. -/
def universeTools : List String :=
  ["vde_switch", "qemu-system-x86_64", "qemu-img"]

/-- Loop body of `checkTools`: walk the tool list with the `missing`
accumulator; a not-found tool is appended to `missing`, any other
`LookPath` failure returns immediately, and after the loop a non-empty
`missing` list becomes the `MissingDependency` error. -/
def checkToolsGo (look : String → LookRes) : List String → List String → Option UErr
  | [], missing => if missing.length > 0 then some (.missingDeps missing) else none
  | t :: ts, missing =>
    match look t with
    | .found => checkToolsGo look ts missing
    | .notFound => checkToolsGo look ts (missing ++ [t])
    | .otherErr e => some (.lookErr e)

/-- checkTools of `universe.go`, with `exec.LookPath` abstracted as `look`. -/
def checkTools (look : String → LookRes) (tools : List String) : Option UErr :=
  checkToolsGo look tools []

/-- Increment of a Go `byte`: wraps modulo 256. -/
def byteInc (b : Nat) : Nat := (b + 1) % 256

/-- The fresh-copy-then-increment performed on an address cursor:
`make` + `copy` build a copy of `a`, then byte `i` of the copy is
incremented (with byte wrap-around). -/
def copyIncAt (a : List Nat) (i : Nat) : List Nat :=
  a.set i (byteInc (a.getD i 0))

/-- State of a `Universe` (`universe.go` struct), with the lifetime context
replaced by the `ctxCancelled` flag and the port-generator goroutine's
counter stored as `nextPort`.  The VM registry plays no part in the claims
under study and is omitted. -/
structure Universe where
  tmpdir : String
  sock : String
  ctxCancelled : Bool
  nextPort : Nat
  nextIP4 : List Nat
  nextIP6 : List Nat
  closed : Bool
  closeErr : Option UErr
deriving DecidableEq

/-- net.ParseIP("172.20.0.1").To4() -/
def initIP4 : List Nat := [172, 20, 0, 1]

/-- net.ParseIP("fd00::1") -/
def initIP6 : List Nat := [253, 0, 0, 0, 0, 0, 0, 0, 0, 0, 0, 0, 0, 0, 0, 1]

/-- The `ret := &Universe{...}` literal built by `New` once the workspace
directory `p` exists: child context not yet cancelled, port generator seeded
at 50000, IP cursors at their initial addresses, not closed. -/
def freshUniverse (p : String) : Universe :=
  { tmpdir := p
    sock := p ++ "/switch"
    ctxCancelled := false
    nextPort := 50000
    nextIP4 := initIP4
    nextIP6 := initIP6
    closed := false
    closeErr := none }

/-- Effects performed by one call to `Close`: whether it cancelled the
lifetime context (`u.shutdown()`) and whether it ran the recursive removal
of the workspace (`os.RemoveAll(u.tmpdir)`). -/
structure CloseEffects where
  cancelled : Bool
  removed : Bool
deriving DecidableEq

/-- Universe.Close of `universe.go`.  `removeResult` is the outcome the
filesystem gives `os.RemoveAll(u.tmpdir)` if the removal is executed on this
call.  Returns the new state, the error returned to the caller, and the
effects performed.  The `closeMu` mutex serialises calls, so concurrent
triggers are modelled as an arbitrary sequence of calls. -/
def close (u : Universe) (removeResult : Option UErr) :
    Universe × Option UErr × CloseEffects :=
  if u.closed then
    (u, u.closeErr, ⟨false, false⟩)
  else
    let u1 := { u with closed := true }
    let u2 := { u1 with ctxCancelled := true }
    let u3 := { u2 with closeErr := removeResult }
    (u3, removeResult, ⟨true, true⟩)

/-- A sequence of `Close` calls (each with the removal outcome the
filesystem would give if that call performed the removal); returns the
result and effects of every call, plus the final state. -/
def closeMany (u : Universe) : List (Option UErr) →
    List (Option UErr × CloseEffects) × Universe
  | [] => ([], u)
  | r :: rs =>
    let s := close u r
    let rest := closeMany s.1 rs
    ((s.2.1, s.2.2) :: rest.1, rest.2)

/-- One iteration of the port-generator goroutine spawned by `New`:
select between delivering the current port (then `port++`) and the
lifetime context being done (then the goroutine exits, yielding nothing). -/
def portGenIter (ctxDone : Bool) (port : Nat) : Option (Nat × Nat) :=
  if ctxDone then none else some (port, port + 1)

/-- Values delivered by the port generator across `n` accepted sends while
the universe is alive, starting from counter value `port`. -/
def portGenDelivered (port : Nat) : Nat → List Nat
  | 0 => []
  | n + 1 =>
    match portGenIter false port with
    | none => []
    | some s => s.1 :: portGenDelivered s.2 n

/-- Modelled from the spec: the port-consume operation
(`AllocatePort() -> (value, ok)` of §6) is not in `src/` — only the
generator goroutine and the `ports` channel are.  Per the spec, consuming
"blocks until either a value is available ... or the universe's lifetime
context ends, in which case the consume operation fails/returns not-ok".
A successful consume is a rendezvous with one generator iteration. -/
def allocatePort (u : Universe) : Option (Nat × Universe) :=
  match portGenIter u.ctxCancelled u.nextPort with
  | none => none
  | some s => some (s.1, { u with nextPort := s.2 })

/-- Universe.ipv4 of `universe.go`: return the current cursor value and
replace the cursor by a fresh incremented copy. -/
def ipv4 (u : Universe) : List Nat × Universe :=
  let ret := u.nextIP4
  (ret, { u with nextIP4 := copyIncAt ret 3 })

/-- Universe.ipv6 of `universe.go`: same shape with the 16-byte cursor. -/
def ipv6 (u : Universe) : List Nat × Universe :=
  let ret := u.nextIP6
  (ret, { u with nextIP6 := copyIncAt ret 15 })

/-- Addresses returned by `n` successive `ipv4` calls. -/
def ipv4Allocs : Universe → Nat → List (List Nat)
  | _, 0 => []
  | u, n + 1 =>
    let s := ipv4 u
    s.1 :: ipv4Allocs s.2 n

/-- Addresses returned by `n` successive `ipv6` calls. -/
def ipv6Allocs : Universe → Nat → List (List Nat)
  | _, 0 => []
  | u, n + 1 =>
    let s := ipv6 u
    s.1 :: ipv6Allocs s.2 n

/-- Address returned by the `(k+1)`-st `ipv4` call (0-based index `k`). -/
def ipv4Nth (u : Universe) (k : Nat) : List Nat :=
  (ipv4Allocs u (k + 1)).getD k []

/-- Address returned by the `(k+1)`-st `ipv6` call (0-based index `k`). -/
def ipv6Nth (u : Universe) (k : Nat) : List Nat :=
  (ipv6Allocs u (k + 1)).getD k []

/-- Environment outcomes `New` depends on: tool resolution, the
`ioutil.TempDir` result, the `swtch.Start()` result, and the
`os.RemoveAll` outcome should `Close` run inside `New`. -/
structure NewEnv where
  look : String → LookRes
  tempDirResult : Except UErr String
  spawnResult : Option UErr
  removeResult : Option UErr

/-- Resources touched by a run of `New`: whether the workspace directory
was created, whether the child lifetime context was derived, whether a
switch spawn was attempted, and — when the spawn failed — the effects of
the `ret.Close()` call made before returning. -/
structure NewEffects where
  tmpdirCreated : Bool
  ctxDerived : Bool
  spawnAttempted : Bool
  closeEffects : Option CloseEffects
deriving DecidableEq

/-- New of `universe.go`: check tools, create the workspace directory,
derive the child context, build the `Universe` literal with the switch
command, start the switch (closing the partial universe and returning the
spawn error on failure), and hand back the universe.  The watcher and
port-generator goroutines are represented by the state already carried in
`Universe` (`ctxCancelled`, `nextPort`). -/
def New (env : NewEnv) : Except UErr Universe × NewEffects :=
  match checkTools env.look universeTools with
  | some err => (.error err, ⟨false, false, false, none⟩)
  | none =>
    match env.tempDirResult with
    | .error err => (.error err, ⟨false, false, false, none⟩)
    | .ok p =>
      let ret := freshUniverse p
      match env.spawnResult with
      | some err =>
        let c := close ret env.removeResult
        (.error err, ⟨true, true, true, some c.2.2⟩)
      | none => (.ok ret, ⟨true, true, true, none⟩)

/-- Which of the two channels of Universe.Wait's select fires first:
the universe's own lifetime context or the caller-supplied context. -/
inductive WaitEvent where
  | universeDone
  | callerDone
deriving DecidableEq

/-- Universe.Wait of `universe.go`: select between the universe's
lifetime ending (return nil) and the caller's context ending (return the
"timeout" error).  The state is returned unchanged to make explicit that
Wait mutates nothing. -/
def Wait (u : Universe) (first : WaitEvent) : Option String × Universe :=
  match first with
  | .universeDone => (none, u)
  | .callerDone => (some "timeout", u)

/-- Heap model for the aliasing claim about returned addresses: `net.IP`
values are pointers into a heap of byte arrays (`cells`, addressed by
index), and the two cursors `nextIP4`/`nextIP6` are such pointers. -/
structure HeapState where
  cells : List (List Nat)
  cursor4 : Nat
  cursor6 : Nat
deriving DecidableEq

/-- Universe.ipv4 on the heap model: return the pointer currently held by
the cursor; `make` allocates a fresh cell (appended to the heap), `copy`
and the increment fill it, and the cursor is repointed at it.  No existing
cell is written. -/
def ipv4Heap (s : HeapState) : Nat × HeapState :=
  let ret := s.cursor4
  let newCell := copyIncAt (s.cells.getD s.cursor4 []) 3
  (ret, ⟨s.cells ++ [newCell], s.cells.length, s.cursor6⟩)

/-- Universe.ipv6 on the heap model. -/
def ipv6Heap (s : HeapState) : Nat × HeapState :=
  let ret := s.cursor6
  let newCell := copyIncAt (s.cells.getD s.cursor6 []) 15
  (ret, ⟨s.cells ++ [newCell], s.cursor4, s.cells.length⟩)

/-- Which allocator a call in a sequence of allocation calls uses. -/
inductive AllocKind where
  | v4
  | v6
deriving DecidableEq

/-- Run an arbitrary sequence of IPv4/IPv6 allocation calls on the heap. -/
def heapRun (s : HeapState) : List AllocKind → HeapState
  | [] => s
  | k :: ks =>
    match k with
    | .v4 => heapRun (ipv4Heap s).2 ks
    | .v6 => heapRun (ipv6Heap s).2 ks

/-! ### Helper lemmas -/

theorem getD_append_last (p : List Nat) (x d : Nat) :
    (p ++ [x]).getD p.length d = x := by
  induction p with
  | nil => rfl
  | cons a as ih => simp [List.getD, ih]

theorem set_append_last (p : List Nat) (x y : Nat) :
    (p ++ [x]).set p.length y = p ++ [y] := by
  induction p with
  | nil => rfl
  | cons a as ih => simp [List.set, ih]

theorem copyIncAt_append_last (p : List Nat) (x : Nat) :
    copyIncAt (p ++ [x]) p.length = p ++ [(x + 1) % 256] := by
  simp [copyIncAt, byteInc, getD_append_last, set_append_last]

theorem getD_map_range (f : Nat → List Nat) {i n : Nat} (h : i < n) (d : List Nat) :
    ((List.range n).map f).getD i d = f i := by
  simp [List.getD_eq_getElem?_getD, List.getElem?_map, List.getElem?_range h]

/-- The values sent by the port generator are the integer interval
starting at the counter value. -/
theorem portGenDelivered_eq (n : Nat) :
    ∀ port, portGenDelivered port n = List.range' port n := by
  induction n with
  | zero => intro port; rfl
  | succ m ih =>
    intro port
    simp [portGenDelivered, portGenIter, List.range'_succ, ih (port + 1)]

/-- Once a universe is marked closed, any sequence of further Close calls
returns the recorded outcome, performs no effects, and leaves the state
untouched. -/
theorem closeMany_closed (rs : List (Option UErr)) :
    ∀ u : Universe, u.closed = true →
      closeMany u rs =
        (rs.map (fun _ => (u.closeErr, (⟨false, false⟩ : CloseEffects))), u) := by
  induction rs with
  | nil => intro u _; rfl
  | cons r rs ih =>
    intro u h
    simp [closeMany, close, h, ih u h]

/-- Indexing helper: fourth byte of a four-byte address. -/
theorem getD3_eq (a b c x : Nat) : ([a, b, c, x] : List Nat).getD 3 0 = x := rfl

/-- Indexing helper: sixteenth byte of a sixteen-byte address. -/
theorem getD15_eq (a1 a2 a3 a4 a5 a6 a7 a8 a9 a10 a11 a12 a13 a14 a15 x : Nat) :
    ([a1, a2, a3, a4, a5, a6, a7, a8, a9, a10, a11, a12, a13, a14, a15, x] :
      List Nat).getD 15 0 = x := rfl

/-- Exact characterisation of `n` IPv4 allocations: the prefix bytes are
left alone and the last byte counts up modulo 256. -/
theorem ipv4Allocs_mod (n : Nat) :
    ∀ (u : Universe) (p : List Nat) (d : Nat),
      u.nextIP4 = p ++ [d] → p.length = 3 → d < 256 →
      ipv4Allocs u n = (List.range n).map (fun i => p ++ [(d + i) % 256]) := by
  induction n with
  | zero => intro u p d _ _ _; rfl
  | succ m ih =>
    intro u p d hcur hlen hd
    have hinc : copyIncAt (p ++ [d]) 3 = p ++ [(d + 1) % 256] := by
      have h := copyIncAt_append_last p d
      rwa [hlen] at h
    have hstep : (ipv4 u).2.nextIP4 = p ++ [(d + 1) % 256] := by
      simp [ipv4, hcur, hinc]
    have hfst : (ipv4 u).1 = p ++ [d] := by simp [ipv4, hcur]
    have htail := ih (ipv4 u).2 p ((d + 1) % 256) hstep hlen
      (Nat.mod_lt _ (by norm_num))
    have hAll : ipv4Allocs u (m + 1) = (ipv4 u).1 :: ipv4Allocs (ipv4 u).2 m := rfl
    rw [hAll, hfst, htail, List.range_succ_eq_map, List.map_cons, List.map_map]
    have h0 : d % 256 = d := Nat.mod_eq_of_lt hd
    refine congrArg₂ List.cons (by rw [Nat.add_zero, h0]) ?_
    refine List.map_congr_left ?_
    intro i _
    simp only [Function.comp_apply]
    have harg : ((d + 1) % 256 + i) % 256 = (d + Nat.succ i) % 256 := by omega
    rw [harg]

/-- Exact characterisation of `n` IPv6 allocations. -/
theorem ipv6Allocs_mod (n : Nat) :
    ∀ (u : Universe) (p : List Nat) (d : Nat),
      u.nextIP6 = p ++ [d] → p.length = 15 → d < 256 →
      ipv6Allocs u n = (List.range n).map (fun i => p ++ [(d + i) % 256]) := by
  induction n with
  | zero => intro u p d _ _ _; rfl
  | succ m ih =>
    intro u p d hcur hlen hd
    have hinc : copyIncAt (p ++ [d]) 15 = p ++ [(d + 1) % 256] := by
      have h := copyIncAt_append_last p d
      rwa [hlen] at h
    have hstep : (ipv6 u).2.nextIP6 = p ++ [(d + 1) % 256] := by
      simp [ipv6, hcur, hinc]
    have hfst : (ipv6 u).1 = p ++ [d] := by simp [ipv6, hcur]
    have htail := ih (ipv6 u).2 p ((d + 1) % 256) hstep hlen
      (Nat.mod_lt _ (by norm_num))
    have hAll : ipv6Allocs u (m + 1) = (ipv6 u).1 :: ipv6Allocs (ipv6 u).2 m := rfl
    rw [hAll, hfst, htail, List.range_succ_eq_map, List.map_cons, List.map_map]
    have h0 : d % 256 = d := Nat.mod_eq_of_lt hd
    refine congrArg₂ List.cons (by rw [Nat.add_zero, h0]) ?_
    refine List.map_congr_left ?_
    intro i _
    simp only [Function.comp_apply]
    have harg : ((d + 1) % 256 + i) % 256 = (d + Nat.succ i) % 256 := by omega
    rw [harg]

/-- While the last byte cannot overflow, IPv4 allocations are the plain
interval `d, d+1, ...` in the last byte. -/
theorem ipv4Allocs_bounded (n : Nat) (u : Universe) (p : List Nat) (d : Nat)
    (hcur : u.nextIP4 = p ++ [d]) (hlen : p.length = 3) (hle : d + n ≤ 256) :
    ipv4Allocs u n = (List.range n).map (fun i => p ++ [d + i]) := by
  cases n with
  | zero => rfl
  | succ m =>
    rw [ipv4Allocs_mod (m + 1) u p d hcur hlen (by omega)]
    refine List.map_congr_left ?_
    intro i hi
    have hi' : i < m + 1 := List.mem_range.mp hi
    rw [Nat.mod_eq_of_lt (by omega)]

/-- While the last byte cannot overflow, IPv6 allocations are the plain
interval `d, d+1, ...` in the last byte. -/
theorem ipv6Allocs_bounded (n : Nat) (u : Universe) (p : List Nat) (d : Nat)
    (hcur : u.nextIP6 = p ++ [d]) (hlen : p.length = 15) (hle : d + n ≤ 256) :
    ipv6Allocs u n = (List.range n).map (fun i => p ++ [d + i]) := by
  cases n with
  | zero => rfl
  | succ m =>
    rw [ipv6Allocs_mod (m + 1) u p d hcur hlen (by omega)]
    refine List.map_congr_left ?_
    intro i hi
    have hi' : i < m + 1 := List.mem_range.mp hi
    rw [Nat.mod_eq_of_lt (by omega)]

/-! ### Claims -/

/-- C1: the first call to Close cancels the lifetime context, removes the
workspace and records the removal result; every subsequent call returns
that recorded outcome without cancelling or removing again, whatever
removal outcomes the filesystem would have produced for them. -/
theorem close_idempotent_records_outcome (u : Universe) (h : u.closed = false)
    (r : Option UErr) (rs : List (Option UErr)) :
    (close u r).2.1 = r ∧
    (close u r).2.2 = ⟨true, true⟩ ∧
    (close u r).1.ctxCancelled = true ∧
    (close u r).1.closeErr = r ∧
    (closeMany (close u r).1 rs).1 =
      rs.map (fun _ => (r, (⟨false, false⟩ : CloseEffects))) := by
  have hcl : (close u r).1.closed = true := by simp [close, h]
  have herr : (close u r).1.closeErr = r := by simp [close, h]
  refine ⟨by simp [close, h], by simp [close, h], by simp [close, h], herr, ?_⟩
  rw [closeMany_closed rs (close u r).1 hcl, herr]

theorem close_idempotent_records_outcome_witness :
    (freshUniverse "w1").closed = false ∧
    (close (freshUniverse "w1") (some (.ioErr "rm failed"))).2.1
      = some (.ioErr "rm failed") ∧
    (closeMany (close (freshUniverse "w1") (some (.ioErr "rm failed"))).1
        [none, some (.ioErr "other")]).1 =
      [(some (.ioErr "rm failed"), ⟨false, false⟩),
       (some (.ioErr "rm failed"), ⟨false, false⟩)] := by
  have h := close_idempotent_records_outcome (freshUniverse "w1") rfl
    (some (.ioErr "rm failed")) [none, some (.ioErr "other")]
  exact ⟨rfl, h.1, h.2.2.2.2⟩

/-- C2: once the lifetime context has ended, a port-allocation attempt
returns not-ok (none) instead of delivering a value. -/
theorem allocatePort_after_cancel_not_ok (u : Universe)
    (h : u.ctxCancelled = true) : allocatePort u = none := by
  simp [allocatePort, portGenIter, h]

theorem allocatePort_after_cancel_not_ok_witness :
    ({ freshUniverse "w2" with ctxCancelled := true } : Universe).ctxCancelled
        = true ∧
    allocatePort { freshUniverse "w2" with ctxCancelled := true } = none :=
  ⟨rfl, allocatePort_after_cancel_not_ok _ rfl⟩

/-- C3: the first N values delivered by the port generator are exactly
50000, 50001, ..., 50000+N-1 in order (the i-th is 50000+i), and no value
is delivered twice. -/
theorem ports_sequential_from_50000 (N : Nat) :
    portGenDelivered 50000 N = List.range' 50000 N ∧
    (∀ i, i < N → (portGenDelivered 50000 N).getD i 0 = 50000 + i) ∧
    (portGenDelivered 50000 N).Nodup := by
  refine ⟨portGenDelivered_eq N 50000, ?_, ?_⟩
  · intro i hi
    rw [portGenDelivered_eq N 50000]
    simp [List.getD_eq_getElem?_getD, List.getElem?_range' _ _ hi]
  · rw [portGenDelivered_eq N 50000]
    exact List.nodup_range' _ _

theorem ports_sequential_from_50000_witness :
    (2 : Nat) < 3 ∧ (portGenDelivered 50000 3).getD 2 0 = 50002 :=
  ⟨by norm_num, (ports_sequential_from_50000 3).2.1 2 (by norm_num)⟩

/-- C4: under the no-overflow precondition N ≤ 255, the first N IPv4
allocations on a fresh Universe are [172,20,0,1+i] for i < N — starting at
172.20.0.1, increasing by exactly one in the last octet, strictly
increasing, pairwise distinct — and the first N IPv6 allocations are
fd00::(1+i), with the same step-by-one and distinctness. -/
theorem ip_allocs_monotone_distinct (s : String) (N : Nat) (h : N ≤ 255) :
    (∀ i, i < N →
      (ipv4Allocs (freshUniverse s) N).getD i [] = [172, 20, 0, 1 + i]) ∧
    (∀ i j, i < j → j < N →
      ((ipv4Allocs (freshUniverse s) N).getD i []).getD 3 0 <
        ((ipv4Allocs (freshUniverse s) N).getD j []).getD 3 0) ∧
    (∀ i, i + 1 < N →
      ((ipv4Allocs (freshUniverse s) N).getD (i + 1) []).getD 3 0 =
        ((ipv4Allocs (freshUniverse s) N).getD i []).getD 3 0 + 1) ∧
    (ipv4Allocs (freshUniverse s) N).Nodup ∧
    (∀ i, i < N →
      (ipv6Allocs (freshUniverse s) N).getD i [] =
        [253, 0, 0, 0, 0, 0, 0, 0, 0, 0, 0, 0, 0, 0, 0, 1 + i]) ∧
    (∀ i, i + 1 < N →
      ((ipv6Allocs (freshUniverse s) N).getD (i + 1) []).getD 15 0 =
        ((ipv6Allocs (freshUniverse s) N).getD i []).getD 15 0 + 1) ∧
    (ipv6Allocs (freshUniverse s) N).Nodup := by
  have h4 : ipv4Allocs (freshUniverse s) N =
      (List.range N).map (fun i => [172, 20, 0] ++ [1 + i]) :=
    ipv4Allocs_bounded N _ [172, 20, 0] 1 rfl rfl (by omega)
  have h6 : ipv6Allocs (freshUniverse s) N =
      (List.range N).map
        (fun i => [253, 0, 0, 0, 0, 0, 0, 0, 0, 0, 0, 0, 0, 0, 0] ++ [1 + i]) :=
    ipv6Allocs_bounded N _ [253, 0, 0, 0, 0, 0, 0, 0, 0, 0, 0, 0, 0, 0, 0] 1
      rfl rfl (by omega)
  have g4 : ∀ i, i < N →
      (ipv4Allocs (freshUniverse s) N).getD i [] = [172, 20, 0, 1 + i] := by
    intro i hi
    rw [h4, getD_map_range _ hi]
    rfl
  have g6 : ∀ i, i < N →
      (ipv6Allocs (freshUniverse s) N).getD i [] =
        [253, 0, 0, 0, 0, 0, 0, 0, 0, 0, 0, 0, 0, 0, 0, 1 + i] := by
    intro i hi
    rw [h6, getD_map_range _ hi]
    rfl
  refine ⟨g4, ?_, ?_, ?_, g6, ?_, ?_⟩
  · intro i j hij hj
    rw [g4 i (by omega), g4 j hj, getD3_eq, getD3_eq]
    omega
  · intro i hi
    rw [g4 i (by omega), g4 (i + 1) hi, getD3_eq, getD3_eq]
    omega
  · rw [h4]
    refine List.Nodup.map ?_ (List.nodup_range N)
    intro a b hab
    simpa using hab
  · intro i hi
    rw [g6 i (by omega), g6 (i + 1) hi, getD15_eq, getD15_eq]
    omega
  · rw [h6]
    refine List.Nodup.map ?_ (List.nodup_range N)
    intro a b hab
    simpa using hab

theorem ip_allocs_monotone_distinct_witness :
    (3 : Nat) ≤ 255 ∧
    (ipv4Allocs (freshUniverse "w4") 3).getD 1 [] = [172, 20, 0, 2] ∧
    (ipv6Allocs (freshUniverse "w4") 3).getD 2 [] =
      [253, 0, 0, 0, 0, 0, 0, 0, 0, 0, 0, 0, 0, 0, 0, 3] :=
  ⟨by norm_num,
   (ip_allocs_monotone_distinct "w4" 3 (by norm_num)).1 1 (by norm_num),
   (ip_allocs_monotone_distinct "w4" 3 (by norm_num)).2.2.2.2.1 2 (by norm_num)⟩

/-- With no hard resolution failure, the check walks the whole list and
reports the accumulator extended by exactly the not-found tools. -/
theorem checkToolsGo_no_other (look : String → LookRes) :
    ∀ (tools acc : List String),
      (∀ t ∈ tools, look t = .found ∨ look t = .notFound) →
      checkToolsGo look tools acc =
        (if 0 < (acc ++ tools.filter (fun t => look t == .notFound)).length
         then some (.missingDeps
            (acc ++ tools.filter (fun t => look t == .notFound)))
         else none) := by
  intro tools
  induction tools with
  | nil =>
    intro acc _
    simp [checkToolsGo]
  | cons t ts ih =>
    intro acc hall
    have hts : ∀ x ∈ ts, look x = .found ∨ look x = .notFound :=
      fun x hx => hall x (List.mem_cons_of_mem _ hx)
    rcases hall t (List.mem_cons_self t ts) with hf | hnf
    · rw [checkToolsGo]
      rw [hf]
      rw [ih acc hts]
      simp [List.filter_cons, hf]
    · rw [checkToolsGo]
      rw [hnf]
      rw [ih (acc ++ [t]) hts]
      simp [List.filter_cons, hnf, List.append_assoc]

/-- A resolution failure other than not-found is returned the moment it
is met, whatever tools remain and whatever is already accumulated. -/
theorem checkToolsGo_other (look : String → LookRes) (t e : String)
    (ht : look t = .otherErr e) :
    ∀ (pre post acc : List String),
      (∀ x ∈ pre, look x = .found ∨ look x = .notFound) →
      checkToolsGo look (pre ++ t :: post) acc = some (.lookErr e) := by
  intro pre
  induction pre with
  | nil =>
    intro post acc _
    rw [List.nil_append, checkToolsGo, ht]
  | cons x xs ih =>
    intro post acc hall
    have hxs : ∀ y ∈ xs, look y = .found ∨ look y = .notFound :=
      fun y hy => hall y (List.mem_cons_of_mem _ hy)
    rcases hall x (List.mem_cons_self x xs) with hf | hnf
    · rw [List.cons_append, checkToolsGo, hf]
      exact ih post acc hxs
    · rw [List.cons_append, checkToolsGo, hnf]
      exact ih post (acc ++ [x]) hxs

/-- C6: the tool-availability check succeeds when every tool resolves;
when the only failures are not-found it returns a single
MissingDependency error enumerating every not-found tool in order, whose
message joins them; and a non-not-found resolution failure is returned
immediately, independent of the tools after it. -/
theorem checkTools_spec (look : String → LookRes) :
    (∀ tools, (∀ t ∈ tools, look t = .found) →
      checkTools look tools = none) ∧
    (∀ tools, (∀ t ∈ tools, look t = .found ∨ look t = .notFound) →
      (∃ t ∈ tools, look t = .notFound) →
      checkTools look tools =
        some (.missingDeps (tools.filter (fun t => look t == .notFound))) ∧
      (UErr.missingDeps
          (tools.filter (fun t => look t == .notFound))).message =
        "required tools missing: " ++ String.intercalate ", "
          (tools.filter (fun t => look t == .notFound))) ∧
    (∀ (pre : List String) (t : String) (post : List String) (e : String),
      (∀ x ∈ pre, look x = .found ∨ look x = .notFound) →
      look t = .otherErr e →
      checkTools look (pre ++ t :: post) = some (.lookErr e)) := by
  refine ⟨?_, ?_, ?_⟩
  · intro tools hall
    rw [checkTools,
      checkToolsGo_no_other look tools [] (fun t ht => Or.inl (hall t ht))]
    have hfil : tools.filter (fun t => look t == .notFound) = [] := by
      rw [List.filter_eq_nil_iff]
      intro t ht
      simp [hall t ht]
    simp [hfil]
  · intro tools hall hex
    rcases hex with ⟨t, ht, hnf⟩
    have hmem : t ∈ tools.filter (fun t => look t == .notFound) := by
      rw [List.mem_filter]
      exact ⟨ht, by simp [hnf]⟩
    have hpos : 0 < (tools.filter (fun t => look t == .notFound)).length :=
      List.length_pos.mpr (List.ne_nil_of_mem hmem)
    rw [checkTools, checkToolsGo_no_other look tools [] hall]
    simp only [List.nil_append]
    exact ⟨by simp [hpos], rfl⟩
  · intro pre t post e hall ht
    exact checkToolsGo_other look t e ht pre post [] hall

theorem checkTools_spec_witness :
    checkTools (fun _ => LookRes.found) universeTools = none ∧
    checkTools
        (fun t => if t = "qemu-img" then LookRes.notFound else LookRes.found)
        universeTools =
      some (.missingDeps (universeTools.filter
        (fun t => (if t = "qemu-img" then LookRes.notFound else LookRes.found)
          == LookRes.notFound))) ∧
    checkTools
        (fun t => if t = "vde_switch" then LookRes.otherErr "permission denied"
          else LookRes.notFound)
        (["vde_switch", "qemu-img"]) = some (.lookErr "permission denied") := by
  refine ⟨?_, ?_, ?_⟩
  · exact (checkTools_spec _).1 universeTools (by intro t _; rfl)
  · exact ((checkTools_spec _).2.1 universeTools (by decide) (by decide)).1
  · exact (checkTools_spec _).2.2 [] "vde_switch" ["qemu-img"]
      "permission denied" (by simp) (by decide)

/-- C5: when the tool check fails, New aborts with that error before any
resource exists: no workspace directory is created, no child context is
derived, no switch spawn is attempted, and no Close runs. -/
theorem new_missing_tools_no_resources (env : NewEnv) (err : UErr)
    (h : checkTools env.look universeTools = some err) :
    New env = (.error err, ⟨false, false, false, none⟩) := by
  simp [New, h]

theorem new_missing_tools_no_resources_witness :
    checkTools (fun _ => LookRes.notFound) universeTools
      = some (.missingDeps universeTools) ∧
    New ⟨fun _ => LookRes.notFound, .ok "/tmp/x", none, none⟩ =
      (.error (.missingDeps universeTools), ⟨false, false, false, none⟩) :=
  ⟨rfl, new_missing_tools_no_resources _ _ rfl⟩

/-- C7: if the switch spawn fails after the workspace and child context
exist, New runs Close on the partially built universe (which cancels the
context and removes the workspace) and returns the spawn error itself —
not the teardown's outcome — with no Universe handle. -/
theorem new_spawn_failure_teardown (look : String → LookRes) (p : String)
    (e : UErr) (rr : Option UErr)
    (hok : checkTools look universeTools = none) :
    New ⟨look, .ok p, some e, rr⟩ =
      (.error e, ⟨true, true, true, some ⟨true, true⟩⟩) := by
  simp [New, hok, close, freshUniverse]

theorem new_spawn_failure_teardown_witness :
    checkTools (fun _ => LookRes.found) universeTools = none ∧
    New ⟨fun _ => LookRes.found, .ok "/tmp/x", some (.spawnErr "vde failed"),
        some (.ioErr "rm failed")⟩ =
      (.error (.spawnErr "vde failed"), ⟨true, true, true, some ⟨true, true⟩⟩) :=
  ⟨rfl, new_spawn_failure_teardown _ "/tmp/x" (.spawnErr "vde failed")
    (some (.ioErr "rm failed")) rfl⟩

/-- C8: Wait returns the nil result when the universe's lifetime ends,
the timeout error when the caller's context ends first, and in both cases
leaves the Universe state untouched. -/
theorem wait_observation_only (u : Universe) :
    Wait u .universeDone = (none, u) ∧
    Wait u .callerDone = (some "timeout", u) :=
  ⟨rfl, rfl⟩

/-- Heap cells present before a sequence of allocation calls are
untouched by it: each call only appends a fresh cell. -/
theorem heapRun_preserves (ks : List AllocKind) :
    ∀ (s : HeapState) (r : Nat), r < s.cells.length →
      (heapRun s ks).cells.getD r [] = s.cells.getD r [] := by
  induction ks with
  | nil => intro s r _; rfl
  | cons k ks ih =>
    intro s r hr
    cases k with
    | v4 =>
      have hstep : heapRun s (.v4 :: ks) = heapRun (ipv4Heap s).2 ks := rfl
      have hlt : r < ((ipv4Heap s).2).cells.length := by
        simp only [ipv4Heap, List.length_append]
        omega
      rw [hstep, ih (ipv4Heap s).2 r hlt]
      simp only [ipv4Heap]
      exact List.getD_append _ _ _ r hr
    | v6 =>
      have hstep : heapRun s (.v6 :: ks) = heapRun (ipv6Heap s).2 ks := rfl
      have hlt : r < ((ipv6Heap s).2).cells.length := by
        simp only [ipv6Heap, List.length_append]
        omega
      rw [hstep, ih (ipv6Heap s).2 r hlt]
      simp only [ipv6Heap]
      exact List.getD_append _ _ _ r hr

/-- C9: a returned address is safe to retain: each allocation returns the
pointer currently held by the cursor, and under any later sequence of
IPv4/IPv6 allocation calls every heap cell that already existed — in
particular every previously returned address — still holds the same
bytes. -/
theorem alloc_no_mutation_of_returned (s : HeapState) (ks : List AllocKind)
    (r : Nat) (hr : r < s.cells.length) :
    (ipv4Heap s).1 = s.cursor4 ∧
    (ipv6Heap s).1 = s.cursor6 ∧
    (heapRun s ks).cells.getD r [] = s.cells.getD r [] :=
  ⟨rfl, rfl, heapRun_preserves ks s r hr⟩

theorem alloc_no_mutation_of_returned_witness :
    (0 : Nat) < ([[172, 20, 0, 1], [253, 0, 0, 0, 0, 0, 0, 0, 0, 0, 0, 0,
        0, 0, 0, 1]] : List (List Nat)).length ∧
    (heapRun ⟨[[172, 20, 0, 1], [253, 0, 0, 0, 0, 0, 0, 0, 0, 0, 0, 0, 0,
        0, 0, 1]], 0, 1⟩ [.v4, .v6, .v4]).cells.getD 0 [] = [172, 20, 0, 1] :=
  ⟨by norm_num,
   (alloc_no_mutation_of_returned ⟨[[172, 20, 0, 1], [253, 0, 0, 0, 0, 0,
      0, 0, 0, 0, 0, 0, 0, 0, 0, 1]], 0, 1⟩ [.v4, .v6, .v4] 0
      (by norm_num)).2.2⟩

/-- The address issued by the (k+1)-st IPv4 allocation: the prefix bytes
of the cursor with the last byte advanced by k modulo 256. -/
theorem ipv4Nth_eq (u : Universe) (p : List Nat) (d k : Nat)
    (hcur : u.nextIP4 = p ++ [d]) (hlen : p.length = 3) (hd : d < 256) :
    ipv4Nth u k = p ++ [(d + k) % 256] := by
  rw [ipv4Nth, ipv4Allocs_mod (k + 1) u p d hcur hlen hd,
    getD_map_range _ (by omega)]

/-- The address issued by the (k+1)-st IPv6 allocation. -/
theorem ipv6Nth_eq (u : Universe) (p : List Nat) (d k : Nat)
    (hcur : u.nextIP6 = p ++ [d]) (hlen : p.length = 15) (hd : d < 256) :
    ipv6Nth u k = p ++ [(d + k) % 256] := by
  rw [ipv6Nth, ipv6Allocs_mod (k + 1) u p d hcur hlen hd,
    getD_map_range _ (by omega)]

/-- C10 counterexample: from the initial state of a fresh Universe, 255
further IPv4 allocations yield 255 pairwise-distinct addresses, and even
the next (256th) allocation is an address not among them — no previously
issued address has been reissued, refuting the claim's "after 255 further
allocations from any state". -/
theorem ip_reissue_after_255_counterexample :
    (ipv4Allocs (freshUniverse "c10") 255).Nodup ∧
    ipv4Nth (freshUniverse "c10") 255 ∉ ipv4Allocs (freshUniverse "c10") 255 := by
  have h4 : ipv4Allocs (freshUniverse "c10") 255 =
      (List.range 255).map (fun i => [172, 20, 0] ++ [1 + i]) :=
    ipv4Allocs_bounded 255 _ [172, 20, 0] 1 rfl rfl (by norm_num)
  have hnth : ipv4Nth (freshUniverse "c10") 255 = [172, 20, 0] ++ [0] := by
    rw [ipv4Nth_eq (freshUniverse "c10") [172, 20, 0] 1 255 rfl rfl
      (by norm_num)]
  constructor
  · rw [h4]
    refine List.Nodup.map ?_ (List.nodup_range 255)
    intro a b hab
    simpa using hab
  · rw [hnth, h4]
    intro hmem
    rcases List.mem_map.mp hmem with ⟨i, _, heq⟩
    simp at heq

/-- C10 amended: cursor advancement is arithmetic modulo 256 on the last
byte only — when the cursor's last byte is 255 the next allocation wraps
it to 0 with every other byte unchanged — and instead of failing the
allocator repeats with period 256: for every k, allocation k+256 returns
the same address as allocation k, so 256 further allocations after any
allocation silently reissue that allocation's address. -/
theorem ip_wrap_period_256 :
    (∀ (u : Universe) (p : List Nat), u.nextIP4 = p ++ [255] →
      p.length = 3 → (ipv4 u).2.nextIP4 = p ++ [0]) ∧
    (∀ (u : Universe) (p : List Nat), u.nextIP6 = p ++ [255] →
      p.length = 15 → (ipv6 u).2.nextIP6 = p ++ [0]) ∧
    (∀ (u : Universe) (p : List Nat) (d k : Nat),
      u.nextIP4 = p ++ [d] → p.length = 3 → d < 256 →
      ipv4Nth u (k + 256) = ipv4Nth u k) ∧
    (∀ (u : Universe) (p : List Nat) (d k : Nat),
      u.nextIP6 = p ++ [d] → p.length = 15 → d < 256 →
      ipv6Nth u (k + 256) = ipv6Nth u k) := by
  refine ⟨?_, ?_, ?_, ?_⟩
  · intro u p hcur hlen
    have h := copyIncAt_append_last p 255
    rw [hlen] at h
    simp [ipv4, hcur, h]
  · intro u p hcur hlen
    have h := copyIncAt_append_last p 255
    rw [hlen] at h
    simp [ipv6, hcur, h]
  · intro u p d k hcur hlen hd
    rw [ipv4Nth_eq u p d (k + 256) hcur hlen hd,
      ipv4Nth_eq u p d k hcur hlen hd]
    have : (d + (k + 256)) % 256 = (d + k) % 256 := by omega
    rw [this]
  · intro u p d k hcur hlen hd
    rw [ipv6Nth_eq u p d (k + 256) hcur hlen hd,
      ipv6Nth_eq u p d k hcur hlen hd]
    have : (d + (k + 256)) % 256 = (d + k) % 256 := by omega
    rw [this]

theorem ip_wrap_period_256_witness :
    (ipv4 { freshUniverse "wa" with
        nextIP4 := [172, 20, 0, 255] }).2.nextIP4 = [172, 20, 0, 0] ∧
    ipv4Nth (freshUniverse "wa") 256 = ipv4Nth (freshUniverse "wa") 0 :=
  ⟨ip_wrap_period_256.1 _ [172, 20, 0] rfl rfl,
   ip_wrap_period_256.2.2.1 (freshUniverse "wa") [172, 20, 0] 1 0 rfl rfl
     (by norm_num)⟩

end Virtuakube
